import Mathlib

/-!
Verification of `fetch_lies.py` (SunnyWar/lie_counter).

The script maintains a persisted state record and updates it once per run:
it loads the state from `data.json`, fetches fact-check claims from an
external API, filters them for recent "false"-rated reviews, updates the
counter, and writes the state back.

Shallow embedding notes:
* Python ints are modelled as `Int`.
* Python strings are modelled as `String`; lowercasing and substring
  search are implemented on `List Char`.
* Review timestamps: the script parses `reviewDate` strings with
  `datetime.fromisoformat` after a `Z → +00:00` substitution.  The parse
  itself is abstracted: a `RawReview` carries `none` when the field is
  missing, empty, or unparseable (all of which make the script skip the
  review), and `some t` with `t` the parsed instant in UTC seconds
  otherwise.  `timedelta(days=1)` is 86400 seconds.
* The `strftime("%Y-%m-%d")` day-formatting of the flagged claim's date
  is abstracted: the `date` field of a `FlaggedClaim` holds the parsed
  instant itself.  No claim under verification depends on the textual
  format of that field.
-/

/-- One entry of the `recent_lies` history, as built by the dict literal
in `check_for_recent_false_claims` (fetch_lies.py lines 110-116). -/
structure FlaggedClaim where
  date : Int
  claim : String
  rating : String
  source : String
  url : String
deriving DecidableEq

/-- The persisted record stored in `data.json` (fetch_lies.py lines 21-26
give its shape and the default values). -/
structure StateData where
  days_since_lie : Int
  term_1 : Int
  term_2 : Int
  recent_lies : List FlaggedClaim
deriving DecidableEq

/-- `update_counter(data, false_claims)` (fetch_lies.py lines 121-148).
`if false_claims:` is Python list truthiness, i.e. non-emptiness.  The
history loop `for claim in false_claims: data["recent_lies"].insert(0, claim)`
is a left fold that conses each new claim onto the front in order, after
which the list is truncated by `[:10]`. -/
def update_counter (data : StateData) (false_claims : List FlaggedClaim) : StateData :=
  if false_claims.isEmpty then
    { data with days_since_lie := data.days_since_lie + 1 }
  else
    { data with
      days_since_lie := 0
      term_2 := data.term_2 + false_claims.length
      recent_lies :=
        (false_claims.foldl (fun acc c => c :: acc) data.recent_lies).take 10 }

/-- The `insert(0, ·)` loop prepends the claims one at a time, so the
result is the reversed new list in front of the old history. -/
lemma foldl_insert_front (L : List FlaggedClaim) (R : List FlaggedClaim) :
    L.foldl (fun acc c => c :: acc) R = L.reverse ++ R := by
  induction L generalizing R with
  | nil => simp
  | cons a as ih => simp [List.foldl_cons, ih, List.append_assoc]

-- Concrete states used by witnesses and counterexamples.

/-- A placeholder history entry. -/
def fc0 : FlaggedClaim := { date := 0, claim := "c", rating := "False", source := "s", url := "" }

/-- A small concrete state. -/
def S0 : StateData := { days_since_lie := 5, term_1 := 30573, term_2 := 10, recent_lies := [] }

/-- A state whose history already exceeds the cap: 11 entries. -/
def S11 : StateData :=
  { days_since_lie := 0, term_1 := 0, term_2 := 0, recent_lies := List.replicate 11 fc0 }

/-- C1: for every state and non-empty flagged list, `update_counter`
resets `days_since_lie` to 0 and adds the list's length to `term_2`. -/
theorem update_counter_nonempty_resets (S : StateData) (L : List FlaggedClaim)
    (h : L ≠ []) :
    (update_counter S L).days_since_lie = 0 ∧
    (update_counter S L).term_2 = S.term_2 + L.length := by
  have hne : L.isEmpty = false := by
    cases L with
    | nil => exact absurd rfl h
    | cons a as => rfl
  simp [update_counter, hne]

/-- Witness for C1 at a concrete state and singleton list. -/
theorem update_counter_nonempty_resets_witness :
    (update_counter S0 [fc0]).days_since_lie = 0 ∧
    (update_counter S0 [fc0]).term_2 = S0.term_2 + ([fc0] : List FlaggedClaim).length :=
  update_counter_nonempty_resets S0 [fc0] (List.cons_ne_nil _ _)

/-- C2: with an empty flagged list, `update_counter` increments
`days_since_lie` by one and leaves `term_1`, `term_2` and `recent_lies`
unchanged. -/
theorem update_counter_empty_increments (S : StateData) :
    (update_counter S []).days_since_lie = S.days_since_lie + 1 ∧
    (update_counter S []).term_1 = S.term_1 ∧
    (update_counter S []).term_2 = S.term_2 ∧
    (update_counter S []).recent_lies = S.recent_lies := by
  simp [update_counter]

/-- C3: for a non-empty flagged list, the new history is the reversed
flagged list prepended to the old history, truncated to 10 entries: the
last-processed flagged claim ends up first. -/
theorem update_counter_recent_lies_eq (S : StateData) (L : List FlaggedClaim)
    (h : L ≠ []) :
    (update_counter S L).recent_lies = (L.reverse ++ S.recent_lies).take 10 := by
  have hne : L.isEmpty = false := by
    cases L with
    | nil => exact absurd rfl h
    | cons a as => rfl
  simp [update_counter, hne, foldl_insert_front]

/-- Witness for C3 at a concrete state and two-element list. -/
theorem update_counter_recent_lies_eq_witness :
    (update_counter S0 [fc0, fc0]).recent_lies =
      (([fc0, fc0] : List FlaggedClaim).reverse ++ S0.recent_lies).take 10 :=
  update_counter_recent_lies_eq S0 [fc0, fc0] (List.cons_ne_nil _ _)

/-- C4 counterexample: starting from a state whose history already has 11
entries, an empty flagged list leaves the history untouched, so the
result's `recent_lies` is longer than 10.  The claim as stated (for every
state and every list) is therefore false. -/
theorem update_counter_cap_cex :
    ¬ (update_counter S11 []).recent_lies.length ≤ 10 := by decide

/-- C4 (amended): if the incoming state satisfies the documented
invariant `len(recent_lies) <= 10`, then after `update_counter` with any
flagged list the history still has at most 10 entries. -/
theorem update_counter_cap (S : StateData) (L : List FlaggedClaim)
    (h : S.recent_lies.length ≤ 10) :
    (update_counter S L).recent_lies.length ≤ 10 := by
  by_cases he : L.isEmpty
  · simpa [update_counter, he] using h
  · simp only [update_counter, he, if_neg]
    simp [List.length_take]

/-- Witness for the amended C4 at a concrete state and list. -/
theorem update_counter_cap_witness :
    (update_counter S0 [fc0]).recent_lies.length ≤ 10 :=
  update_counter_cap S0 [fc0] (by decide)

/-! ## Claim filter (`check_for_recent_false_claims`, fetch_lies.py lines 72-118) -/

/-- A raw review object from the API response (`claim["claimReview"][i]`).
`reviewDate` abstracts the timestamp parse: `none` stands for a missing,
empty, or unparseable `reviewDate` string (the script skips the review in
each of those cases), `some t` for a successfully parsed instant in UTC
seconds. -/
structure RawReview where
  reviewDate : Option Int
  textualRating : Option String
  publisherName : Option String
  url : Option String
deriving DecidableEq

/-- A raw claim object from the API response.  `claimReview = none`
models a claim without the `"claimReview"` key (skipped at line 88). -/
structure RawClaim where
  text : Option String
  claimReview : Option (List RawReview)
deriving DecidableEq

/-- `s.lower()` on the character list of a Python string. -/
def lowerChars (s : String) : List Char :=
  s.data.map Char.toLower

/-- Python `needle == haystack[:len(needle)]`: the haystack starts with
the needle. -/
def startsWithL : List Char → List Char → Bool
  | [], _ => true
  | _ :: _, [] => false
  | a :: as, b :: bs => a == b && startsWithL as bs

/-- Python `needle in haystack` on strings: substring containment. -/
def containsL (needle : List Char) : List Char → Bool
  | [] => startsWithL needle []
  | b :: bs => startsWithL needle (b :: bs) || containsL needle bs

/-- The fixed keyword set of fetch_lies.py line 109. -/
def falseKeywords : List String :=
  ["false", "pants on fire", "lie", "incorrect", "wrong"]

/-- Line 108-109: lowercase the textual rating and test whether any
keyword occurs in it as a substring. -/
def matchesFalse (rating : String) : Bool :=
  falseKeywords.any (fun kw => containsL kw.data (lowerChars rating))

/-- The dict literal of lines 110-116 building one history entry, with
the `.get(..., default)` fallbacks.  The `date` field abstracts
`review_date.strftime("%Y-%m-%d")` to the parsed instant itself. -/
def mkFlaggedClaim (claim : RawClaim) (review : RawReview) (review_date : Int) :
    FlaggedClaim :=
  { date := review_date
    claim := claim.text.getD "Unknown claim"
    rating := review.textualRating.getD "Unknown"
    source := review.publisherName.getD "Unknown source"
    url := review.url.getD "" }

/-- The contribution of a single review in the inner loop of lines
91-116: skip if the date is missing/unparseable, skip if the parsed date
is strictly before `now - timedelta(days=1)` (86400 s), then append one
entry when the rating matches a keyword. -/
def reviewOutput (now : Int) (claim : RawClaim) (review : RawReview) :
    List FlaggedClaim :=
  match review.reviewDate with
  | none => []
  | some review_date =>
    if review_date < now - 86400 then []
    else if matchesFalse (review.textualRating.getD "") then
      [mkFlaggedClaim claim review review_date]
    else []

/-- `check_for_recent_false_claims(claims)` (lines 72-118), parameterised
by the reference instant `now` (`datetime.now(timezone.utc)` at line 82).
Claims without a `"claimReview"` key contribute nothing; otherwise the
reviews are processed in order and matching entries are appended in
input order. -/
def check_for_recent_false_claims (now : Int) (claims : List RawClaim) :
    List FlaggedClaim :=
  claims.flatMap fun claim =>
    match claim.claimReview with
    | none => []
    | some reviews => reviews.flatMap fun review => reviewOutput now claim review

/-- `startsWithL` tests for a literal prefix-match decomposition. -/
lemma startsWithL_iff (n h : List Char) :
    startsWithL n h = true ↔ ∃ q, h = n ++ q := by
  induction n generalizing h with
  | nil => simp [startsWithL]
  | cons a as ih =>
    cases h with
    | nil =>
      simp [startsWithL]
    | cons b bs =>
      simp only [startsWithL, Bool.and_eq_true, beq_iff_eq, ih, List.cons_append,
        List.cons.injEq]
      constructor
      · rintro ⟨rfl, q, rfl⟩
        exact ⟨q, rfl, rfl⟩
      · rintro ⟨q, rfl, rfl⟩
        exact ⟨rfl, q, rfl⟩

/-- `containsL` tests for a substring decomposition. -/
lemma containsL_iff (n h : List Char) :
    containsL n h = true ↔ ∃ p q, h = p ++ n ++ q := by
  induction h with
  | nil =>
    simp only [containsL, startsWithL_iff]
    constructor
    · rintro ⟨q, hq⟩
      exact ⟨[], q, by simpa using hq⟩
    · rintro ⟨p, q, hpq⟩
      have hp : p = [] := by
        cases p with
        | nil => rfl
        | cons x xs => simp at hpq
      subst hp
      exact ⟨q, by simpa using hpq⟩
  | cons b bs ih =>
    simp only [containsL, Bool.or_eq_true, startsWithL_iff, ih]
    constructor
    · rintro (⟨q, hq⟩ | ⟨p, q, hpq⟩)
      · exact ⟨[], q, by simpa using hq⟩
      · exact ⟨b :: p, q, by simp [hpq]⟩
    · rintro ⟨p, q, hpq⟩
      cases p with
      | nil =>
        exact Or.inl ⟨q, by simpa using hpq⟩
      | cons x xs =>
        simp only [List.cons_append, List.cons.injEq] at hpq
        exact Or.inr ⟨xs, q, hpq.2⟩

/-- An absent or empty textual rating matches no keyword. -/
lemma matchesFalse_empty : matchesFalse "" = false := by decide

/-- The literal default `"Unknown"` matches no keyword. -/
lemma matchesFalse_unknown : matchesFalse "Unknown" = false := by decide

/-- A concrete review whose parsed date is 23 hours (82800 s) before the
reference instant 1000000, with a matching rating. -/
def r23 : RawReview :=
  { reviewDate := some (1000000 - 82800), textualRating := some "False",
    publisherName := some "p", url := some "u" }

/-- A concrete claim wrapping `r23`. -/
def c23 : RawClaim := { text := some "t", claimReview := some [r23] }

/-- A review with every optional field absent. -/
def rBlank : RawReview :=
  { reviewDate := some 0, textualRating := none, publisherName := none, url := none }

/-- A claim with every optional field absent. -/
def cBlank : RawClaim := { text := none, claimReview := none }

/-- C6: for a review with a parseable timestamp and a matching rating,
the review is skipped exactly when its timestamp is strictly earlier
than `now - 24h`; in particular a timestamp 25 hours before `now` is
excluded and one 23 hours before `now` is included. -/
theorem review_window_iff (now : Int) (c : RawClaim) (r : RawReview) (d : Int)
    (hd : r.reviewDate = some d)
    (hr : matchesFalse (r.textualRating.getD "") = true) :
    (reviewOutput now c r = [] ↔ d < now - 86400) ∧
    (d = now - 90000 → reviewOutput now c r = []) ∧
    (d = now - 82800 → reviewOutput now c r = [mkFlaggedClaim c r d]) := by
  refine ⟨?_, ?_, ?_⟩
  · simp only [reviewOutput, hd]
    constructor
    · intro h
      by_contra hlt
      rw [if_neg hlt, if_pos hr] at h
      exact absurd h (List.cons_ne_nil _ _)
    · intro h
      rw [if_pos h]
  · rintro rfl
    simp only [reviewOutput, hd]
    rw [if_pos (by omega)]
  · rintro rfl
    simp only [reviewOutput, hd]
    rw [if_neg (by omega), if_pos hr]

/-- Witness for C6 at `now = 1000000` and a review dated 23 hours before. -/
theorem review_window_iff_witness :
    (reviewOutput 1000000 c23 r23 = [] ↔ (1000000 - 82800 : Int) < 1000000 - 86400) ∧
    ((1000000 - 82800 : Int) = 1000000 - 90000 → reviewOutput 1000000 c23 r23 = []) ∧
    ((1000000 - 82800 : Int) = 1000000 - 82800 →
      reviewOutput 1000000 c23 r23 = [mkFlaggedClaim c23 r23 (1000000 - 82800)]) :=
  review_window_iff 1000000 c23 r23 (1000000 - 82800) rfl (by decide)

/-- C7: a rating matches exactly when its lowercased text contains one of
the five keywords as a substring; "Half True" never matches and
"Pants on Fire!" always does. -/
theorem rating_keyword_iff (rating : String) :
    (matchesFalse rating = true ↔
      ∃ kw ∈ (["false", "pants on fire", "lie", "incorrect", "wrong"] : List String),
        ∃ p q, lowerChars rating = p ++ kw.data ++ q) ∧
    matchesFalse "Half True" = false ∧ matchesFalse "Pants on Fire!" = true := by
  refine ⟨?_, by decide, by decide⟩
  simp only [matchesFalse, falseKeywords, List.any_eq_true, containsL_iff]

/-- C9 counterexample: for a review with an absent `textualRating`, the
history-entry constructor fills the `rating` field with the literal
`"Unknown"` (fetch_lies.py line 113), not with `"Unknown rating"` as the
claim states. -/
theorem flagged_defaults_cex :
    (mkFlaggedClaim cBlank rBlank 0).rating = "Unknown" ∧
    ("Unknown" : String) ≠ "Unknown rating" := by
  exact ⟨rfl, by decide⟩

/-- C9 (amended): the defaults for absent optional fields are
`"Unknown claim"` for the claim text, `"Unknown"` for the textual
rating, `"Unknown source"` for the publisher name, and `""` for the url. -/
theorem flagged_defaults (c : RawClaim) (r : RawReview) (d : Int) :
    (c.text = none → (mkFlaggedClaim c r d).claim = "Unknown claim") ∧
    (r.textualRating = none → (mkFlaggedClaim c r d).rating = "Unknown") ∧
    (r.publisherName = none → (mkFlaggedClaim c r d).source = "Unknown source") ∧
    (r.url = none → (mkFlaggedClaim c r d).url = "") := by
  refine ⟨fun h => ?_, fun h => ?_, fun h => ?_, fun h => ?_⟩ <;>
    simp [mkFlaggedClaim, h]

/-- Witness for the amended C9 at the all-absent claim and review. -/
theorem flagged_defaults_witness :
    (mkFlaggedClaim cBlank rBlank 0).claim = "Unknown claim" ∧
    (mkFlaggedClaim cBlank rBlank 0).rating = "Unknown" ∧
    (mkFlaggedClaim cBlank rBlank 0).source = "Unknown source" ∧
    (mkFlaggedClaim cBlank rBlank 0).url = "" :=
  ⟨(flagged_defaults cBlank rBlank 0).1 rfl,
   (flagged_defaults cBlank rBlank 0).2.1 rfl,
   (flagged_defaults cBlank rBlank 0).2.2.1 rfl,
   (flagged_defaults cBlank rBlank 0).2.2.2 rfl⟩

/-- Every entry of the filter's output arises from some claim and review
whose rating passed the keyword test. -/
lemma mem_check_structure (now : Int) (claims : List RawClaim) (fc : FlaggedClaim)
    (h : fc ∈ check_for_recent_false_claims now claims) :
    ∃ c r d, fc = mkFlaggedClaim c r d ∧
      matchesFalse (r.textualRating.getD "") = true := by
  simp only [check_for_recent_false_claims, List.mem_flatMap] at h
  obtain ⟨c, _, hc⟩ := h
  rcases hcr : c.claimReview with _ | reviews
  · rw [hcr] at hc
    simp at hc
  · rw [hcr] at hc
    simp only [List.mem_flatMap] at hc
    obtain ⟨r, _, hr⟩ := hc
    rcases hrd : r.reviewDate with _ | d
    · simp [reviewOutput, hrd] at hr
    · simp only [reviewOutput, hrd] at hr
      by_cases hcut : d < now - 86400
      · rw [if_pos hcut] at hr
        simp at hr
      · rw [if_neg hcut] at hr
        by_cases hm : matchesFalse (r.textualRating.getD "") = true
        · rw [if_pos hm, List.mem_singleton] at hr
          exact ⟨c, r, d, hr, hm⟩
        · rw [if_neg hm] at hr
          simp at hr

/-- C10: a review with an absent `textualRating` contributes nothing to
the filter's output (its rating is read as `""`, which matches no
keyword), and consequently no entry of the output ever carries the
defaulted rating value `"Unknown"`. -/
theorem no_defaulted_rating_in_output (now : Int) (claims : List RawClaim)
    (c : RawClaim) (r : RawReview) (fc : FlaggedClaim)
    (h1 : r.textualRating = none)
    (h2 : fc ∈ check_for_recent_false_claims now claims) :
    reviewOutput now c r = [] ∧ fc.rating ≠ "Unknown" := by
  constructor
  · rcases hrd : r.reviewDate with _ | d
    · simp [reviewOutput, hrd]
    · simp [reviewOutput, hrd, h1, matchesFalse_empty, ite_self]
  · obtain ⟨c', r', d', rfl, hm⟩ := mem_check_structure now claims fc h2
    rcases hrt : r'.textualRating with _ | s
    · rw [hrt] at hm
      simp only [Option.getD_none] at hm
      exact absurd hm (by simp [matchesFalse_empty])
    · rw [hrt] at hm
      simp only [Option.getD_some] at hm
      simp only [mkFlaggedClaim, hrt, Option.getD_some]
      intro hs
      rw [hs] at hm
      exact absurd hm (by simp [matchesFalse_unknown])

/-- Witness for C10: with `now = 1000000` and the single claim `c23`,
the output contains exactly the flagged entry built from `r23`, and the
blank review contributes nothing. -/
theorem no_defaulted_rating_in_output_witness :
    reviewOutput 1000000 cBlank rBlank = [] ∧
    (mkFlaggedClaim c23 r23 (1000000 - 82800)).rating ≠ "Unknown" :=
  no_defaulted_rating_in_output 1000000 [c23] cBlank rBlank
    (mkFlaggedClaim c23 r23 (1000000 - 82800)) rfl (by decide)

/-! ## State store and orchestrator (`load_data`, `save_data`, `main`,
fetch_lies.py lines 14-41 and 151-188)

File I/O is modelled by an explicit environment and a trace of the
states written to `data.json`.  `save_data` is assumed to succeed (its
`IOError` abort path is outside the modelled environment); the fetch is
modelled by its result list, since `fetch_fact_checks` collapses every
transport or HTTP failure to an empty list (lines 62-69). -/

/-- The content of `data.json` at the start of a run: missing file,
present but malformed (a `json.JSONDecodeError` on load), or a valid
record. -/
inductive FileContent
  | absent
  | malformed
  | valid (s : StateData)
deriving DecidableEq

/-- The default record synthesized at lines 21-26 when `data.json` is
missing. -/
def default_data : StateData :=
  { days_since_lie := 0, term_1 := 30573, term_2 := 0, recent_lies := [] }

/-- `load_data()` (lines 14-31), with the list of writes it performs:
a missing file is replaced by the default record, which is immediately
persisted (one write) and returned; a malformed file re-raises the
decode error; otherwise the stored record is returned with no write. -/
def load_data : FileContent → Except Unit (StateData × List StateData)
  | FileContent.absent => Except.ok (default_data, [default_data])
  | FileContent.malformed => Except.error ()
  | FileContent.valid s => Except.ok (s, [])

/-- Python truthiness of `api_key` at line 156: `None` and the empty
string are both falsy. -/
def apiKeyPresent : Option String → Bool
  | none => false
  | some s => !(s == "")

/-- The inputs of one run: the environment variable, the initial file
content, the fetch result (already collapsed to `[]` on any transport
failure), and the reference instant. -/
structure RunEnv where
  api_key : Option String
  file : FileContent
  fetched : List RawClaim
  now : Int

/-- How the process terminates: normally, or by an uncaught exception. -/
inductive RunResult
  | success
  | aborted
deriving DecidableEq

/-- `main()` (lines 151-188) as a function (named `mainRun` since Lean
reserves `main` for an IO entry point) from the run environment to
the termination status and the ordered trace of writes to `data.json`.
Path 1 (lines 156-165): no credential, increment and save.  Path 2
(lines 173-177): empty fetch result, increment and save.  Path 3:
filter, `update_counter`, save. -/
def mainRun (env : RunEnv) : RunResult × List StateData :=
  if apiKeyPresent env.api_key then
    match load_data env.file with
    | Except.error _ => (RunResult.aborted, [])
    | Except.ok (data, w) =>
      if env.fetched.isEmpty then
        (RunResult.success, w ++ [{ data with days_since_lie := data.days_since_lie + 1 }])
      else
        (RunResult.success,
          w ++ [update_counter data (check_for_recent_false_claims env.now env.fetched)])
  else
    match load_data env.file with
    | Except.error _ => (RunResult.aborted, [])
    | Except.ok (data, w) =>
      (RunResult.success, w ++ [{ data with days_since_lie := data.days_since_lie + 1 }])

/-- A run with no credential and a missing state file. -/
def envAbsent : RunEnv := { api_key := none, file := FileContent.absent, fetched := [], now := 0 }

/-- A run with a credential, a valid state file, and an empty fetch. -/
def envValid : RunEnv :=
  { api_key := some "k", file := FileContent.valid S0, fetched := [], now := 0 }

/-- A run with a credential and a malformed state file. -/
def envMalformed : RunEnv :=
  { api_key := some "k", file := FileContent.malformed, fetched := [], now := 0 }

/-- C5 counterexample: when `data.json` is absent at the start of the
run, `load_data` persists the default record and `main` saves again at
the end, so the run terminates successfully after writing the state file
twice, not exactly once. -/
theorem main_single_write_cex :
    (mainRun envAbsent).1 = RunResult.success ∧
    (mainRun envAbsent).2.length = 2 ∧ ¬ (mainRun envAbsent).2.length = 1 := by
  decide

/-- C5 (amended): in every run that starts from an existing well-formed
state file, whichever of the three terminal paths is taken, the state
file is written exactly once and the process terminates successfully
(when the file is absent, the load step performs one additional write of
the default record). -/
theorem main_single_write (env : RunEnv) (s : StateData)
    (h : env.file = FileContent.valid s) :
    (mainRun env).1 = RunResult.success ∧ (mainRun env).2.length = 1 := by
  by_cases hk : apiKeyPresent env.api_key
  · by_cases hf : env.fetched.isEmpty
    · simp [mainRun, load_data, h, hk, hf]
    · simp [mainRun, load_data, h, hk, hf]
  · simp [mainRun, load_data, h, hk]

/-- Witness for the amended C5: a run on a valid file with an empty
fetch writes exactly once. -/
theorem main_single_write_witness :
    (mainRun envValid).1 = RunResult.success ∧ (mainRun envValid).2.length = 1 :=
  main_single_write envValid S0 rfl

/-- C8: when `data.json` exists but is malformed, the load re-raises the
decode error, the process aborts, and no write to the state file occurs. -/
theorem malformed_aborts_no_write (env : RunEnv)
    (h : env.file = FileContent.malformed) :
    (mainRun env).1 = RunResult.aborted ∧ (mainRun env).2 = [] := by
  by_cases hk : apiKeyPresent env.api_key
  · simp [mainRun, load_data, h, hk]
  · simp [mainRun, load_data, h, hk]

/-- Witness for C8 at a concrete malformed-file run. -/
theorem malformed_aborts_no_write_witness :
    (mainRun envMalformed).1 = RunResult.aborted ∧ (mainRun envMalformed).2 = [] :=
  malformed_aborts_no_write envMalformed rfl
